import Mathlib

/-!
Shallow embedding of the move-classification core of `game_review.py`
(unloke/chess-GUI): piece model, the `is_intuitive` / `is_sacrifice`
heuristics, the `categorize_move` classifier (duplicated verbatim in
`Worker` and `MoveTypeWorker`), the score extraction and delta
normalization of `Worker.run`, the batch review loop, and the
thread-id staleness check of `PGNAnalyzer`.  Engine interactions are
modelled as explicit oracles/response values, so every engine-dependent
code path is a function of the engine's answers.
-/

namespace ChessGUI

/-- Piece kinds as in the `chess` library (`chess.PAWN`, …). -/
inductive PieceType
  | pawn | knight | bishop | rook | queen | king
deriving DecidableEq, Repr

/-- Side colors (`chess.WHITE` / `chess.BLACK`). -/
inductive Color
  | white | black
deriving DecidableEq, Repr

/-- A piece: color plus kind (`chess.Piece`). -/
structure Piece where
  color : Color
  piece_type : PieceType
deriving DecidableEq, Repr

/-- Squares are integers 0..63 as in the `chess` library. -/
abbrev Square := Nat

/-- Model of `chess.square_rank(sq)`: the rank index of a square (`sq >> 3`). -/
def square_rank (sq : Square) : Nat := sq / 8

/-- A move: from-square, to-square, optional promotion (`chess.Move`). -/
structure Move where
  from_square : Square
  to_square : Square
  promotion : Option PieceType := none
deriving DecidableEq, Repr

/-- A board is modelled by its `piece_at` map: which piece (if any)
occupies each square.  Only `piece_at` is consulted by the classifier. -/
def Board := Square → Option Piece

/-- The `piece_value` table of `Worker.is_sacrifice` /
`MoveTypeWorker.is_sacrifice` (lines 255-262 / 488-495). -/
def piece_value : PieceType → Nat
  | .pawn => 1
  | .knight => 3
  | .bishop => 3
  | .rook => 5
  | .queen => 9
  | .king => 0

/-- Model of `Worker.is_intuitive` (lines 236-251), identical in
`MoveTypeWorker` (lines 469-484): a knight/bishop/pawn move whose
destination rank is further toward the opponent's side. -/
def is_intuitive (board : Board) (move : Move) : Bool :=
  match board move.from_square with
  | none => false
  | some piece =>
    if piece.piece_type = .knight ∨ piece.piece_type = .bishop ∨ piece.piece_type = .pawn then
      let from_rank := square_rank move.from_square
      let to_rank := square_rank move.to_square
      if piece.color = .white ∧ to_rank > from_rank then true
      else if piece.color = .black ∧ to_rank < from_rank then true
      else false
    else false

/-- Model of `Worker.is_sacrifice` (lines 253-268), identical in
`MoveTypeWorker` (lines 486-501): true when the from-square and
to-square are both occupied and the mover's conventional value strictly
exceeds the captured piece's value. -/
def is_sacrifice (board : Board) (move : Move) : Bool :=
  match board move.from_square, board move.to_square with
  | some piece, some captured_piece =>
    if piece_value captured_piece.piece_type < piece_value piece.piece_type then true
    else false
  | _, _ => false

/-- Model of `Worker.categorize_move` (lines 198-222), textually identical in
`MoveTypeWorker` (lines 425-449).  `get_move_score` is the engine
oracle answering the two `self.get_move_score(board.copy(), m)` calls
(each pushes `m` and analyses the resulting position at depth 18,
returning the White-perspective score, 0 when the engine gave none);
the oracle is consulted exactly on the code paths where the Python
method calls the engine. -/
def categorize_move (get_move_score : Move → Int) (board_before_move : Board)
    (move best_move : Move) (second_best_move : Option Move) (eval_diff : Int) : String :=
  if move = best_move then
    match second_best_move with
    | some sb =>
      let score_diff := get_move_score best_move - get_move_score sb
      if score_diff > 200 then
        if is_intuitive board_before_move move then "Best"
        else if is_sacrifice board_before_move move then "Brilliant"
        else "Great"
      else "Best"
    | none => "Best"
  else
    if second_best_move = some move ∧ |eval_diff| ≤ 30 then "Excellent"
    else if |eval_diff| ≤ 50 then "Good"
    else if |eval_diff| ≤ 90 then "Inaccuracy"
    else if |eval_diff| ≤ 300 then "Mistake"
    else "Blunder"

/-- A White-perspective engine score after `entry["score"].white()`:
either a centipawn value or "mate in n" (`n > 0`: White delivers mate
in `n`; `n < 0`: White is mated in `-n`). -/
inductive EngineScore
  | cp (x : Int)
  | mate (n : Int)
deriving DecidableEq, Repr

/-- Model of `Score.score(mate_score=100000)` of the `chess.engine` library, as
invoked at lines 103, 133, 230, 369, 399 and 460: `Cp(x)` yields `x`;
`Mate(n)` yields `100000 - n` when `n > 0` and `-100000 - n` otherwise. -/
def scoreToInt : EngineScore → Int
  | .cp x => x
  | .mate n => if n > 0 then 100000 - n else -100000 - n

/-- The unnormalized delta of `Worker.run` lines 139-142 (identical in
`MoveTypeWorker.run` lines 405-408): `move_score - best_score` when both
are available, else 0. -/
def rawEvalDiff (best_score move_score : Option Int) : Int :=
  match best_score, move_score with
  | some b, some m => m - b
  | _, _ => 0

/-- The delta actually passed to the classifier, `Worker.run`
lines 139-146 (identical in `MoveTypeWorker.run` lines 405-415): the
raw delta, negated when the mover is Black. -/
def compute_eval_diff (best_score move_score : Option Int) (player : Color) : Int :=
  let d := rawEvalDiff best_score move_score
  if player = .black then -d else d

/-- One `multipv` entry of `engine.analyse(..., multipv=3)` as consumed
by `Worker.run` lines 98-106: its rank, the first move of its principal
variation (the code reads only `move_sequence[0]`; engine PVs are
nonempty), and its White-perspective score. -/
structure Variation where
  multipv : Nat
  firstMove : Move
  score : EngineScore
deriving Repr

/-- Stable insertion used to model `variations.sort(key=lambda x: x[0])`
(line 106): Python's sort is stable and ascending on the `multipv` key. -/
def insertByMultipv (v : Variation) : List Variation → List Variation
  | [] => [v]
  | w :: ws =>
    if v.multipv < w.multipv then v :: w :: ws
    else w :: insertByMultipv v ws

/-- Model of `variations.sort(key=lambda x: x[0])` (line 106). -/
def sortByMultipv : List Variation → List Variation
  | [] => []
  | v :: vs => insertByMultipv v (sortByMultipv vs)

/-- The engine's answers for one ply of the review loop: the multipv
entries of the first `analyse` call, the `engine.play` fallback move
used when no entries came back, the optional score of the post-move
`analyse` call, and the oracle answering any `get_move_score` calls
made inside `categorize_move`. -/
structure PlyEngineResponse where
  variations : List Variation
  play_move : Move
  score_after : Option EngineScore
  move_scores : Move → Int

/-- Outcome of the engine interactions for one ply: either the
responses, or an exception raised by an engine request (pipe closure,
protocol failure — `chess.engine` raises in that case and `Worker.run`
has no handler around its engine calls). -/
inductive PlyResponse
  | ok (r : PlyEngineResponse)
  | engine_failure

/-- The game-derived data for one ply of the loop of `Worker.run`:
the position before the move, the played move, and the side to move. -/
structure PlyInput where
  board_before : Board
  move : Move
  mover : Color

/-- The fields of one `analysis_data` entry relevant to classification
(line 180-188); the board copy, SAN text and display strings are GUI
formatting and carry no further logic. -/
structure MoveRecord where
  eval_type : String
  mover : Color
deriving DecidableEq, Repr

/-- Extraction of best move, best score and second-best move from the
sorted variations, `Worker.run` lines 105-125 (the stored
`second_best_score` is never read afterwards and is omitted). -/
def extract_lines (r : PlyEngineResponse) : Move × Option Int × Option Move :=
  match sortByMultipv r.variations with
  | v0 :: v1 :: _ => (v0.firstMove, some (scoreToInt v0.score), some v1.firstMove)
  | [v0] => (v0.firstMove, some (scoreToInt v0.score), none)
  | [] => (r.play_move, none, none)

/-- The per-ply body of the loop of `Worker.run` (lines 94-188): extract
the lines, convert the post-move score, compute the normalized delta,
classify, and record. -/
def process_ply (p : PlyInput) (r : PlyEngineResponse) : MoveRecord :=
  let ex := extract_lines r
  let best_move := ex.1
  let best_score := ex.2.1
  let second_best_move := ex.2.2
  let move_score := Option.map scoreToInt r.score_after
  let eval_diff := compute_eval_diff best_score move_score p.mover
  let eval_type := categorize_move r.move_scores p.board_before p.move best_move
    second_best_move eval_diff
  { eval_type := eval_type, mover := p.mover }

/-- Result of `Worker.run`: the `analysis_data` list as left on the
worker object, and whether the final `self.finished.emit()` (line 196)
was reached.  An engine exception propagates out of `run` (there is no
handler around the loop), so the thread dies before `finished` fires. -/
structure RunResult where
  analysis_data : List MoveRecord
  finished_emitted : Bool
deriving Repr

/-- The review loop of `Worker.run` (lines 81-196) over the plies of the
parsed game, with `engine i` the engine's behavior on the `i`-th ply's
requests.  On an engine exception the loop is abandoned: the records
appended so far stay in `analysis_data`, and `finished` is never
emitted. -/
def run_loop (engine : Nat → PlyResponse) :
    List PlyInput → Nat → List MoveRecord → RunResult
  | [], _, acc => ⟨acc.reverse, true⟩
  | p :: ps, i, acc =>
    match engine i with
    | .ok r => run_loop engine ps (i + 1) (process_ply p r :: acc)
    | .engine_failure => ⟨acc.reverse, false⟩

/-- Model of `Worker.run` on a parsed game. -/
def Worker_run (engine : Nat → PlyResponse) (plies : List PlyInput) : RunResult :=
  run_loop engine plies 0 []

/-- Delivery: `PGNAnalyzer.analysis_finished` is connected to the worker's
`finished` signal and is the only reader of `worker.analysis_data`; the
records reach the foreground exactly when `finished` was emitted. -/
def delivered_records (res : RunResult) : Option (List MoveRecord) :=
  if res.finished_emitted then some res.analysis_data else none

/-- The staleness-relevant state of `PGNAnalyzer`:
`current_move_type_thread_id` and the text of `move_eval_label` (the
foreground display).  `uuid.uuid4()` thread identifiers are modelled by
a fresh counter `next_id` (uuid4 ids are assumed never to collide), so
each started task receives an id never issued before. -/
structure AnalyzerState where
  current_move_type_thread_id : Nat
  next_id : Nat
  move_eval_label : String
deriving Repr

/-- Model of `PGNAnalyzer.evaluate_current_move` lines 822-848 restricted to the
staleness machinery: generate a fresh thread id, store it as
`current_move_type_thread_id`, and start a `MoveTypeWorker` carrying
that id (returned as the task's captured id). -/
def evaluate_current_move (s : AnalyzerState) : AnalyzerState × Nat :=
  ({ s with current_move_type_thread_id := s.next_id, next_id := s.next_id + 1 }, s.next_id)

/-- Model of `PGNAnalyzer.on_move_type_evaluated` lines 885-900: if the task's
thread id no longer matches `current_move_type_thread_id` the result is
ignored; otherwise the label is applied to the display (the
`update_move_eval_label` text). -/
def on_move_type_evaluated (s : AnalyzerState) (eval_type : String) (thread_id : Nat) :
    AnalyzerState :=
  if thread_id ≠ s.current_move_type_thread_id then s
  else { s with move_eval_label := eval_type }

/-- Events the analyzer state can undergo while a classification task is
in flight: another classification starts (a user move), or some task's
completion callback fires. -/
inductive AnalyzerEvent
  | start
  | complete (eval_type : String) (thread_id : Nat)

/-- One event step on the analyzer state. -/
def analyzerStep (s : AnalyzerState) : AnalyzerEvent → AnalyzerState
  | .start => (evaluate_current_move s).1
  | .complete et tid => on_move_type_evaluated s et tid

/-- A sequence of events. -/
def analyzerRun (s : AnalyzerState) : List AnalyzerEvent → AnalyzerState
  | [] => s
  | e :: es => analyzerRun (analyzerStep s e) es

/-- C1: for a played move that differs from the best line's first move,
`categorize_move` returns exactly the label determined by the
mover-perspective delta bands: `Excellent` when the move equals the
second-best move and `|delta| ≤ 30`; otherwise `Good` when
`|delta| ≤ 50`; `Inaccuracy` when `50 < |delta| ≤ 90`; `Mistake` when
`90 < |delta| ≤ 300`; `Blunder` when `300 < |delta|` — every boundary
inclusive on the better label. -/
theorem categorize_nonbest_delta_bands (o : Move → Int) (b : Board)
    (move best_move : Move) (second : Option Move) (d : Int)
    (hne : move ≠ best_move) :
    ((second = some move ∧ |d| ≤ 30) →
      categorize_move o b move best_move second d = "Excellent") ∧
    (¬(second = some move ∧ |d| ≤ 30) → |d| ≤ 50 →
      categorize_move o b move best_move second d = "Good") ∧
    (50 < |d| → |d| ≤ 90 →
      categorize_move o b move best_move second d = "Inaccuracy") ∧
    (90 < |d| → |d| ≤ 300 →
      categorize_move o b move best_move second d = "Mistake") ∧
    (300 < |d| →
      categorize_move o b move best_move second d = "Blunder") := by
  unfold categorize_move
  rw [if_neg hne]
  refine ⟨fun hx => ?_, fun h1 h2 => ?_, fun h1 h2 => ?_, fun h1 h2 => ?_, fun h1 => ?_⟩
  · rw [if_pos hx]
  · rw [if_neg h1, if_pos h2]
  · rw [if_neg (fun hc => by linarith [hc.2]), if_neg (not_le.mpr h1), if_pos h2]
  · rw [if_neg (fun hc => by linarith [hc.2]), if_neg (not_le.mpr (by linarith)),
      if_neg (not_le.mpr h1), if_pos h2]
  · rw [if_neg (fun hc => by linarith [hc.2]), if_neg (not_le.mpr (by linarith)),
      if_neg (not_le.mpr (by linarith)), if_neg (not_le.mpr h1)]

/-- Witness for C1 at the 30/31 boundary: a move equal to the
second-best line with delta 30 is `Excellent`. -/
theorem categorize_nonbest_delta_bands_witness :
    categorize_move (fun _ => 0) (fun _ => none) ⟨0, 1, none⟩ ⟨0, 2, none⟩
      (some ⟨0, 1, none⟩) 30 = "Excellent" :=
  (categorize_nonbest_delta_bands (fun _ => 0) (fun _ => none) ⟨0, 1, none⟩ ⟨0, 2, none⟩
    (some ⟨0, 1, none⟩) 30 (by decide)).1 ⟨rfl, by decide⟩

/-- C6: when the engine returned exactly one variation, a played move
equal to that line's first move is labeled `Best` (the
sacrifice/intuitive branch is skipped: `second_best_move` is `None`). -/
theorem single_variation_yields_best (p : PlyInput) (r : PlyEngineResponse)
    (v : Variation) (hv : r.variations = [v]) (hm : p.move = v.firstMove) :
    (process_ply p r).eval_type = "Best" := by
  unfold process_ply extract_lines
  rw [hv, hm]
  simp only [sortByMultipv, insertByMultipv]
  simp [categorize_move]

/-- Witness for C6: a concrete single-variation response where the
played move is the line's first move. -/
theorem single_variation_yields_best_witness :
    (process_ply ⟨fun _ => none, ⟨0, 1, none⟩, Color.white⟩
      ⟨[⟨1, ⟨0, 1, none⟩, EngineScore.cp 0⟩], ⟨0, 1, none⟩, none, fun _ => 0⟩).eval_type
      = "Best" :=
  single_variation_yields_best _ _ ⟨1, ⟨0, 1, none⟩, EngineScore.cp 0⟩ rfl rfl

/-- C9: `is_sacrifice` holds exactly when the destination square holds a
piece of strictly lower conventional value than the moving piece; a
move to an empty square is never a sacrifice, and an equal-value
capture is never a sacrifice. -/
theorem is_sacrifice_spec (b : Board) (m : Move) :
    (is_sacrifice b m = true ↔
      ∃ piece captured : Piece, b m.from_square = some piece ∧
        b m.to_square = some captured ∧
        piece_value captured.piece_type < piece_value piece.piece_type) ∧
    (b m.to_square = none → is_sacrifice b m = false) ∧
    (∀ piece captured : Piece, b m.from_square = some piece →
      b m.to_square = some captured →
      piece_value piece.piece_type = piece_value captured.piece_type →
      is_sacrifice b m = false) := by
  unfold is_sacrifice
  rcases hf : b m.from_square with _ | piece <;>
    rcases ht : b m.to_square with _ | captured <;>
      (simp [hf, ht]; try omega)

/-- Witness for C9: a queen capturing a pawn is a sacrifice per the
code's heuristic (the queen is worth more than the captured pawn). -/
theorem is_sacrifice_spec_witness :
    is_sacrifice
      (fun sq => if sq = 0 then some ⟨Color.white, PieceType.queen⟩
        else if sq = 9 then some ⟨Color.black, PieceType.pawn⟩ else none)
      ⟨0, 9, none⟩ = true :=
  (is_sacrifice_spec _ _).1.mpr
    ⟨⟨Color.white, PieceType.queen⟩, ⟨Color.black, PieceType.pawn⟩, rfl, rfl, by decide⟩

/-- C4: the evaluation delta is negated exactly when the mover is Black
and never when the mover is White, and the delta handed to
`categorize_move` inside the per-ply pipeline is precisely the raw
White-perspective delta with that sign normalization applied. -/
theorem eval_diff_negated_iff_black :
    (∀ bs ms : Option Int, compute_eval_diff bs ms Color.white = rawEvalDiff bs ms) ∧
    (∀ bs ms : Option Int, compute_eval_diff bs ms Color.black = -rawEvalDiff bs ms) ∧
    (∀ (p : PlyInput) (r : PlyEngineResponse),
      (process_ply p r).eval_type =
        categorize_move r.move_scores p.board_before p.move
          (extract_lines r).1 (extract_lines r).2.2
          (if p.mover = Color.black
            then -rawEvalDiff (extract_lines r).2.1 (Option.map scoreToInt r.score_after)
            else rawEvalDiff (extract_lines r).2.1 (Option.map scoreToInt r.score_after))) := by
  refine ⟨fun bs ms => ?_, fun bs ms => ?_, fun p r => ?_⟩
  · simp [compute_eval_diff]
  · simp [compute_eval_diff]
  · rfl

/-- C10: when either score is unavailable the delta collapses to 0, so a
played non-best move is labeled `Excellent` if it equals the
second-best move and `Good` otherwise — never `Inaccuracy`, `Mistake`
or `Blunder`. -/
theorem missing_score_capped_at_good (o : Move → Int) (b : Board)
    (move best_move : Move) (second : Option Move) (mover : Color)
    (bs ms : Option Int) (hmissing : bs = none ∨ ms = none)
    (hne : move ≠ best_move) :
    categorize_move o b move best_move second (compute_eval_diff bs ms mover) =
      if second = some move then "Excellent" else "Good" := by
  have hraw : rawEvalDiff bs ms = 0 := by
    rcases hmissing with h | h <;> subst h
    · cases ms <;> rfl
    · cases bs <;> rfl
  have hd : compute_eval_diff bs ms mover = 0 := by
    unfold compute_eval_diff
    rw [hraw]
    cases mover <;> simp
  rw [hd]
  unfold categorize_move
  rw [if_neg hne]
  by_cases hs : second = some move
  · rw [if_pos ⟨hs, by norm_num⟩, if_pos hs]
  · rw [if_neg (fun hc => hs hc.1), if_pos (by norm_num : |(0 : Int)| ≤ 50), if_neg hs]

/-- Witness for C10: a missing best-line score with the played move
equal to the second-best move yields `Excellent`. -/
theorem missing_score_capped_at_good_witness :
    categorize_move (fun _ => 0) (fun _ => none) ⟨0, 1, none⟩ ⟨0, 2, none⟩
      (some ⟨0, 1, none⟩) (compute_eval_diff none (some 5) Color.white) = "Excellent" := by
  have h := missing_score_capped_at_good (fun _ => 0) (fun _ => none) ⟨0, 1, none⟩
    ⟨0, 2, none⟩ (some ⟨0, 1, none⟩) Color.white none (some 5) (Or.inl rfl) (by decide)
  simpa using h

/-- Counterexample to C2: a best move that is neither a sacrifice nor
intuitive (a white rook advancing to an empty square), with a
second-best line and a score gap above 200, is labeled `Great` — not
`Best` as the claim's "in every other case" requires. -/
theorem categorize_gap_nonsacrifice_great :
    is_sacrifice (fun sq => if sq = 0 then some ⟨Color.white, PieceType.rook⟩ else none)
      ⟨0, 24, none⟩ = false ∧
    is_intuitive (fun sq => if sq = 0 then some ⟨Color.white, PieceType.rook⟩ else none)
      ⟨0, 24, none⟩ = false ∧
    (fun m => if m = (⟨0, 24, none⟩ : Move) then (300 : Int) else 0) ⟨0, 24, none⟩ -
      (fun m => if m = (⟨0, 24, none⟩ : Move) then (300 : Int) else 0) ⟨8, 16, none⟩ > 200 ∧
    categorize_move (fun m => if m = (⟨0, 24, none⟩ : Move) then (300 : Int) else 0)
      (fun sq => if sq = 0 then some ⟨Color.white, PieceType.rook⟩ else none)
      ⟨0, 24, none⟩ ⟨0, 24, none⟩ (some ⟨8, 16, none⟩) 0 = "Great" ∧
    "Great" ≠ "Best" := by
  refine ⟨by decide, by decide, by decide, ?_, by decide⟩
  decide

/-- C2 as amended: when the played move equals the best move, a
second-best line exists and the re-evaluated score gap exceeds 200, the
label is `Best` if the move is intuitive; otherwise `Brilliant` if it
is a sacrifice and `Great` if it is not. -/
theorem categorize_best_move_large_gap (o : Move → Int) (b : Board)
    (move sb : Move) (d : Int) (hgap : o move - o sb > 200) :
    categorize_move o b move move (some sb) d =
      if is_intuitive b move then "Best"
      else if is_sacrifice b move then "Brilliant"
      else "Great" := by
  unfold categorize_move
  rw [if_pos rfl]
  show (if o move - o sb > 200 then _ else _) = _
  rw [if_pos hgap]

/-- Witness for the amended C2: the rook advance of the counterexample
is classified `Great` through the gap branch. -/
theorem categorize_best_move_large_gap_witness :
    categorize_move (fun m => if m = (⟨0, 24, none⟩ : Move) then (300 : Int) else 0)
      (fun sq => if sq = 0 then some ⟨Color.white, PieceType.rook⟩ else none)
      ⟨0, 24, none⟩ ⟨0, 24, none⟩ (some ⟨8, 16, none⟩) 0 = "Great" := by
  have h := categorize_best_move_large_gap
    (fun m => if m = (⟨0, 24, none⟩ : Move) then (300 : Int) else 0)
    (fun sq => if sq = 0 then some ⟨Color.white, PieceType.rook⟩ else none)
    ⟨0, 24, none⟩ ⟨8, 16, none⟩ 0 (by decide)
  rw [h]
  decide

/-- Counterexample to C3: two invocations of `categorize_move` with
identical classifier arguments (same board, played move, best move,
second-best move and delta) but different engine answers to the
`get_move_score` calls return different labels, so the classifier is
not a pure function of those arguments and does perform engine calls. -/
theorem categorize_not_engine_free :
    categorize_move (fun _ => 0) (fun _ => none)
      ⟨0, 24, none⟩ ⟨0, 24, none⟩ (some ⟨8, 16, none⟩) 0 = "Best" ∧
    categorize_move (fun m => if m = (⟨0, 24, none⟩ : Move) then (300 : Int) else 0)
      (fun _ => none)
      ⟨0, 24, none⟩ ⟨0, 24, none⟩ (some ⟨8, 16, none⟩) 0 = "Great" ∧
    "Best" ≠ "Great" := by
  refine ⟨by decide, by decide, by decide⟩

/-- C3 as amended: the classification is independent of the engine's
`get_move_score` answers whenever the played move differs from the best
move or no second-best line exists; only the `Best`/`Great`/`Brilliant`
branch re-consults the engine. -/
theorem categorize_engine_independent_cases (o1 o2 : Move → Int) (b : Board)
    (move best_move : Move) (second : Option Move) (d : Int)
    (h : move ≠ best_move ∨ second = none) :
    categorize_move o1 b move best_move second d =
      categorize_move o2 b move best_move second d := by
  unfold categorize_move
  rcases h with h | h
  · simp only [if_neg h]
  · subst h
    by_cases hm : move = best_move
    · simp only [if_pos hm]
    · simp only [if_neg hm]

/-- Witness for the amended C3: two different oracles agree on a
non-best played move. -/
theorem categorize_engine_independent_cases_witness :
    categorize_move (fun _ => 0) (fun _ => none) ⟨0, 1, none⟩ ⟨0, 2, none⟩ none 0 =
      categorize_move (fun _ => 5) (fun _ => none) ⟨0, 1, none⟩ ⟨0, 2, none⟩ none 0 :=
  categorize_engine_independent_cases (fun _ => 0) (fun _ => 5) (fun _ => none)
    ⟨0, 1, none⟩ ⟨0, 2, none⟩ none 0 (Or.inr rfl)

/-- Counterexample to C5: a White mate-in-3 is mapped to 99997, not to
the magnitude ±100000 the claim states. -/
theorem mate_score_not_exactly_100000 :
    scoreToInt (EngineScore.mate 3) = 99997 ∧
    scoreToInt (EngineScore.mate 3) ≠ 100000 ∧
    scoreToInt (EngineScore.mate 3) ≠ -100000 := by
  refine ⟨by decide, by decide, by decide⟩

/-- C5 as amended: a mate-in-`n` score is mapped before any delta
arithmetic to the finite White-perspective value `±(100000 - n)`; this
dominates every centipawn score of magnitude below `100000 - n`, and
mate-vs-mate comparisons stay correctly ordered (a shorter mate is more
extreme for the winning side). -/
theorem mate_score_mapping_dominates (n c : Int) (hn : 0 < n)
    (hc : |c| < 100000 - n) :
    scoreToInt (EngineScore.mate n) = 100000 - n ∧
    scoreToInt (EngineScore.mate (-n)) = -(100000 - n) ∧
    |scoreToInt (EngineScore.cp c)| < |scoreToInt (EngineScore.mate n)| ∧
    (∀ m : Int, 0 < m → m < n →
      scoreToInt (EngineScore.mate n) < scoreToInt (EngineScore.mate m) ∧
      scoreToInt (EngineScore.mate (-m)) < scoreToInt (EngineScore.mate (-n))) := by
  simp only [scoreToInt]
  have hpos : (0 : Int) < 100000 - n := lt_of_le_of_lt (abs_nonneg c) hc
  refine ⟨?_, ?_, ?_, fun m hm hmn => ⟨?_, ?_⟩⟩
  · rw [if_pos hn]
  · rw [if_neg (by omega : ¬(-n > 0))]
    ring
  · rw [if_pos hn, abs_of_pos hpos]
    exact hc
  · rw [if_pos hn, if_pos hm]
    omega
  · rw [if_neg (by omega : ¬(-m > 0)), if_neg (by omega : ¬(-n > 0))]
    omega

/-- Witness for the amended C5: mate-in-3 (mapped to 99997) dominates a
+900 centipawn score. -/
theorem mate_score_mapping_dominates_witness :
    |scoreToInt (EngineScore.cp 900)| < |scoreToInt (EngineScore.mate 3)| :=
  (mate_score_mapping_dominates 3 900 (by decide) (by decide)).2.2.1

/-- Helper: no event decreases the id counter. -/
theorem analyzerStep_next_id_le (s : AnalyzerState) (e : AnalyzerEvent) :
    s.next_id ≤ (analyzerStep s e).next_id := by
  cases e with
  | start =>
    simp [analyzerStep, evaluate_current_move]
  | complete et tid =>
    simp only [analyzerStep]
    unfold on_move_type_evaluated
    split_ifs <;> exact Nat.le_refl _

/-- Helper: once the current id and the id counter both dominate `c`,
they keep dominating `c` under any events. -/
theorem analyzerRun_id_bound (es : List AnalyzerEvent) :
    ∀ (s : AnalyzerState) (c : Nat),
    c ≤ s.current_move_type_thread_id → c < s.next_id →
    c ≤ (analyzerRun s es).current_move_type_thread_id ∧
      c < (analyzerRun s es).next_id := by
  induction es with
  | nil =>
    intro s c hc hn
    exact ⟨hc, hn⟩
  | cons e es ih =>
    intro s c hc hn
    have hstep : c ≤ (analyzerStep s e).current_move_type_thread_id ∧
        c < (analyzerStep s e).next_id := by
      cases e with
      | start =>
        constructor <;> simp [analyzerStep, evaluate_current_move] <;> omega
      | complete et tid =>
        simp only [analyzerStep]
        unfold on_move_type_evaluated
        split_ifs <;> exact ⟨hc, hn⟩
    simp only [analyzerRun]
    exact ih (analyzerStep s e) c hstep.1 hstep.2

/-- Helper: if some `start` event occurs, the resulting current id is at
least the id counter as it stood beforehand — in particular distinct
from every previously issued thread id. -/
theorem analyzerRun_start_raises (es : List AnalyzerEvent) :
    ∀ s : AnalyzerState, AnalyzerEvent.start ∈ es →
    s.next_id ≤ (analyzerRun s es).current_move_type_thread_id := by
  induction es with
  | nil =>
    intro s h
    exact absurd h (List.not_mem_nil _)
  | cons e es ih =>
    intro s h
    simp only [analyzerRun]
    rcases List.mem_cons.mp h with he | hmem
    · subst he
      exact (analyzerRun_id_bound es (analyzerStep s AnalyzerEvent.start) s.next_id
        (by simp [analyzerStep, evaluate_current_move])
        (by simp [analyzerStep, evaluate_current_move])).1
    · exact Nat.le_trans (analyzerStep_next_id_le s e) (ih (analyzerStep s e) hmem)

/-- C7: a classification task's label is applied to the foreground
display only when its captured thread id still equals
`current_move_type_thread_id` at completion; a mismatching completion
leaves the analyzer state untouched, and after any intervening
`evaluate_current_move` (a generation change) the completion of the
older task is always such a mismatch, so its result is silently
dropped. -/
theorem stale_move_type_result_dropped :
    (∀ (s : AnalyzerState) (lbl : String) (tid : Nat),
      tid ≠ s.current_move_type_thread_id → on_move_type_evaluated s lbl tid = s) ∧
    (∀ (s : AnalyzerState) (lbl : String) (tid : Nat),
      tid = s.current_move_type_thread_id →
      on_move_type_evaluated s lbl tid = { s with move_eval_label := lbl }) ∧
    (∀ (s : AnalyzerState) (es : List AnalyzerEvent) (lbl : String),
      AnalyzerEvent.start ∈ es →
      on_move_type_evaluated (analyzerRun (evaluate_current_move s).1 es) lbl
          (evaluate_current_move s).2 =
        analyzerRun (evaluate_current_move s).1 es) := by
  have hdrop : ∀ (s : AnalyzerState) (lbl : String) (tid : Nat),
      tid ≠ s.current_move_type_thread_id → on_move_type_evaluated s lbl tid = s := by
    intro s lbl tid h
    unfold on_move_type_evaluated
    rw [if_pos h]
  refine ⟨hdrop, ?_, ?_⟩
  · intro s lbl tid h
    unfold on_move_type_evaluated
    rw [if_neg (fun hne => hne h)]
  · intro s es lbl hmem
    apply hdrop
    have h1 := analyzerRun_start_raises es (evaluate_current_move s).1 hmem
    simp only [evaluate_current_move] at h1 ⊢
    omega

/-- Witness for C7: from a concrete initial state, a task started at
generation 0 whose completion arrives after a new start is dropped. -/
theorem stale_move_type_result_dropped_witness :
    on_move_type_evaluated
      (analyzerRun (evaluate_current_move ⟨0, 0, "x"⟩).1 [AnalyzerEvent.start]) "Best"
      (evaluate_current_move ⟨0, 0, "x"⟩).2 =
      analyzerRun (evaluate_current_move ⟨0, 0, "x"⟩).1 [AnalyzerEvent.start] :=
  stale_move_type_result_dropped.2.2 ⟨0, 0, "x"⟩ [AnalyzerEvent.start] "Best"
    (List.mem_singleton.mpr rfl)

/-- Helper: shape of the review loop when the engine answers the first
`k` plies and raises on ply `k`: the loop stops, `analysis_data` holds
the records of the first `k` plies, and `finished` is never emitted. -/
theorem run_loop_mid_failure (engine : Nat → PlyResponse) (oks : Nat → PlyEngineResponse)
    (k : Nat) :
    ∀ (ps : List PlyInput) (i : Nat) (acc : List MoveRecord),
    k < ps.length →
    (∀ j, j < k → engine (i + j) = PlyResponse.ok (oks (i + j))) →
    engine (i + k) = PlyResponse.engine_failure →
    run_loop engine ps i acc =
      ⟨acc.reverse ++ List.zipWith process_ply (ps.take k)
        ((List.range k).map (fun j => oks (i + j))), false⟩ := by
  induction k with
  | zero =>
    intro ps i acc hk hok hfail
    cases ps with
    | nil => simp at hk
    | cons p ps =>
      rw [Nat.add_zero] at hfail
      simp [run_loop, hfail]
  | succ k ih =>
    intro ps i acc hk hok hfail
    cases ps with
    | nil => simp at hk
    | cons p ps =>
      have h0 : engine i = PlyResponse.ok (oks i) := by
        simpa using hok 0 (Nat.succ_pos k)
      simp only [run_loop, h0]
      have hok' : ∀ j, j < k → engine (i + 1 + j) = PlyResponse.ok (oks (i + 1 + j)) := by
        intro j hj
        have h := hok (j + 1) (by omega)
        rwa [show i + (j + 1) = i + 1 + j by omega] at h
      have hfail' : engine (i + 1 + k) = PlyResponse.engine_failure := by
        rwa [show i + (k + 1) = i + 1 + k by omega] at hfail
      have hk' : k < ps.length := by
        simp only [List.length_cons] at hk
        omega
      rw [ih ps (i + 1) (process_ply p (oks i) :: acc) hk' hok' hfail']
      have hfun : ((fun j => oks (i + j)) ∘ Nat.succ) = fun j => oks (i + 1 + j) := by
        funext j
        simp only [Function.comp_apply]
        congr 1
        omega
      congr 1
      simp only [List.reverse_cons, List.append_assoc, List.singleton_append,
        List.take_succ_cons, List.range_succ_eq_map, List.map_cons, List.map_map,
        List.zipWith_cons_cons, Nat.add_zero, hfun]

/-- C8 as amended: an engine failure on ply `k` aborts `Worker.run` by
an unhandled exception — the records of the plies before the failure
remain on `analysis_data` in order, but `finished` is never emitted, so
the partial records are never delivered to the foreground. -/
theorem worker_run_mid_failure (engine : Nat → PlyResponse) (oks : Nat → PlyEngineResponse)
    (plies : List PlyInput) (k : Nat) (hk : k < plies.length)
    (hok : ∀ j, j < k → engine j = PlyResponse.ok (oks j))
    (hfail : engine k = PlyResponse.engine_failure) :
    (Worker_run engine plies).analysis_data =
      List.zipWith process_ply (plies.take k) ((List.range k).map oks) ∧
    (Worker_run engine plies).finished_emitted = false ∧
    delivered_records (Worker_run engine plies) = none := by
  have h := run_loop_mid_failure engine oks k plies 0 [] hk
    (fun j hj => by simpa using hok j hj) (by simpa using hfail)
  have hmap : (List.range k).map (fun j => oks (0 + j)) = (List.range k).map oks := by
    congr 1
    funext j
    rw [Nat.zero_add]
  unfold Worker_run
  rw [h]
  refine ⟨by simp [hmap], rfl, rfl⟩

/-- Witness for the amended C8: a two-ply game whose engine fails on the
second ply yields one stored record and no delivery. -/
theorem worker_run_mid_failure_witness :
    delivered_records (Worker_run
      (fun i => if i = 0
        then PlyResponse.ok ⟨[], ⟨0, 2, none⟩, none, fun _ => 0⟩
        else PlyResponse.engine_failure)
      [⟨fun _ => none, ⟨0, 1, none⟩, Color.white⟩,
        ⟨fun _ => none, ⟨0, 1, none⟩, Color.white⟩]) = none :=
  (worker_run_mid_failure
    (fun i => if i = 0
      then PlyResponse.ok ⟨[], ⟨0, 2, none⟩, none, fun _ => 0⟩
      else PlyResponse.engine_failure)
    (fun _ => ⟨[], ⟨0, 2, none⟩, none, fun _ => 0⟩)
    [⟨fun _ => none, ⟨0, 1, none⟩, Color.white⟩,
      ⟨fun _ => none, ⟨0, 1, none⟩, Color.white⟩]
    1 (by simp)
    (fun j hj => by
      have : j = 0 := by omega
      subst this
      rfl)
    rfl).2.2

/-- Counterexample to C8: on that two-ply game the record for the first
ply was produced and sits on the worker, yet nothing is delivered — the
worker thread dies with the exception instead of reporting a
terminated-early result. -/
theorem worker_run_failure_not_delivered :
    delivered_records (Worker_run
      (fun i => if i = 0
        then PlyResponse.ok ⟨[], ⟨0, 3, none⟩, none, fun _ => 0⟩
        else PlyResponse.engine_failure)
      [⟨fun _ => none, ⟨0, 1, none⟩, Color.white⟩,
        ⟨fun _ => none, ⟨0, 1, none⟩, Color.white⟩]) = none ∧
    (Worker_run
      (fun i => if i = 0
        then PlyResponse.ok ⟨[], ⟨0, 3, none⟩, none, fun _ => 0⟩
        else PlyResponse.engine_failure)
      [⟨fun _ => none, ⟨0, 1, none⟩, Color.white⟩,
        ⟨fun _ => none, ⟨0, 1, none⟩, Color.white⟩]).analysis_data =
      [⟨"Good", Color.white⟩] := by
  refine ⟨rfl, by decide⟩

end ChessGUI
